import Mathlib

/-!
Verification development for the image-comparison repository.

The repository ships a frontend (the `ComparisonForm` component embedded in
the README, the page component, and `result.tsx`) together with a
comparison-and-visualisation engine described in the specification
(Normalizer, Pixel-Difference and SSIM comparison strategies, Heatmap and
Contour visualisation strategies, and the Orchestrator).  The engine's
source is not part of the checked-in source tree, so the engine is modelled
here from the specification; the frontend component is embedded from its
source.  All pixel arithmetic is carried out exactly over the rationals.
-/

namespace ImageComparison

/-- An RGB pixel sample.  Channels are rationals standing for the 8-bit
channel values `0 .. 255` of the source representation. -/
structure Pixel where
  r : ℚ
  g : ℚ
  b : ℚ
deriving DecidableEq

/-- Channel values of an 8-bit RGB pixel lie in `[0, 255]`. -/
def Pixel.valid (p : Pixel) : Prop :=
  0 ≤ p.r ∧ p.r ≤ 255 ∧ 0 ≤ p.g ∧ p.g ≤ 255 ∧ 0 ≤ p.b ∧ p.b ≤ 255

/-- Modelled from the spec: `NormalizedImage` — a rectangular grid of RGB
pixel samples with a fixed width and height, origin top-left.  The grid is
represented as a total function on coordinates; only coordinates below the
stated width and height are meaningful. -/
structure Img where
  width : ℕ
  height : ℕ
  pix : ℕ → ℕ → Pixel

/-- Every in-range pixel of the image has 8-bit channel values. -/
def Img.valid (I : Img) : Prop :=
  ∀ x y, x < I.width → y < I.height → (I.pix x y).valid

/-- Modelled from the spec: `DifferenceMap` — a rectangular grid of
normalized difference magnitudes. -/
structure DiffMap where
  width : ℕ
  height : ℕ
  cell : ℕ → ℕ → ℚ

/-- Clipping to a closed interval. -/
def clip (lo hi x : ℚ) : ℚ := max lo (min hi x)

/-- Mean of a difference map over all its cells. -/
def DiffMap.mean (m : DiffMap) : ℚ :=
  (∑ p in Finset.range m.width ×ˢ Finset.range m.height, m.cell p.1 p.2) /
    (m.width * m.height)

/-- Modelled from the spec: the sensitivity-derived effective threshold
`t = (100 - sensitivity) / 100.0`. -/
def threshold (s : ℤ) : ℚ := ((100 - s : ℤ) : ℚ) / 100

/-! ## Comparison strategy: Pixel-Difference (modelled from the spec) -/

/-- Modelled from the spec: pixel-difference cell magnitude — per channel
`delta = |A[c] - B[c]|`, cell magnitude `mean(delta over channels) / 255.0`. -/
def pixelCellMag (a b : Pixel) : ℚ :=
  ((|a.r - b.r| + |a.g - b.g| + |a.b - b.b|) / 3) / 255

/-- Modelled from the spec: the pixel-difference strategy's difference map,
one cell per pixel of the (equal-dimension) inputs. -/
def pixelDiffMap (A B : Img) : DiffMap :=
  ⟨A.width, A.height, fun x y => pixelCellMag (A.pix x y) (B.pix x y)⟩

/-- Modelled from the spec: the pixel-difference aggregate score
`100.0 * (1.0 - mean(magnitude over all cells))`, clipped to `[0, 100]`.
Per the spec's design note, the score is computed from the raw magnitudes
and is independent of the sensitivity threshold. -/
def pixelScore (A B : Img) : ℚ :=
  clip 0 100 (100 * (1 - (pixelDiffMap A B).mean))

/-- Modelled from the spec: `compare(imgA, imgB, sensitivity)` for the
pixel-difference strategy, returning the difference map and the aggregate
score.  Sensitivity is a visualisation/classification threshold only and
does not enter the score. -/
def pixelCompare (A B : Img) (_s : ℤ) : DiffMap × ℚ :=
  (pixelDiffMap A B, pixelScore A B)

/-! ## Comparison strategy: Structural Similarity (modelled from the spec) -/

/-- Modelled from the spec: luminance conversion to a single channel.  The
spec fixes no exact weights; the mean of the three channels is the fixed
implementation choice here. -/
def lum (p : Pixel) : ℚ := (p.r + p.g + p.b) / 3

/-- SSIM stabilizing constant `C1 = (0.01 * L)^2` with `L = 255`. -/
def ssimC1 : ℚ := (255 / 100) ^ 2

/-- SSIM stabilizing constant `C2 = (0.03 * L)^2` with `L = 255`. -/
def ssimC2 : ℚ := (3 * 255 / 100) ^ 2

/-- Mean of a window of luminance values. -/
def wmean (w : List ℚ) : ℚ := w.sum / w.length

/-- Variance of a window of luminance values. -/
def wvar (w : List ℚ) : ℚ :=
  ((w.map fun x => (x - wmean w) ^ 2).sum) / w.length

/-- Covariance of two windows of luminance values. -/
def wcov (wa wb : List ℚ) : ℚ :=
  ((List.zipWith (fun a b => (a - wmean wa) * (b - wmean wb)) wa wb).sum) /
    wa.length

/-- Modelled from the spec: per-window SSIM
`((2*meanA*meanB + C1) * (2*covAB + C2)) /
 ((meanA^2 + meanB^2 + C1) * (varA + varB + C2))`. -/
def ssimWin (wa wb : List ℚ) : ℚ :=
  ((2 * wmean wa * wmean wb + ssimC1) * (2 * wcov wa wb + ssimC2)) /
    ((wmean wa ^ 2 + wmean wb ^ 2 + ssimC1) * (wvar wa + wvar wb + ssimC2))

/-- Fixed SSIM window size (7×7, stride 1; an implementation choice the
spec leaves to the implementer but requires to be fixed). -/
def windowSize : ℕ := 7

/-- Modelled from the spec: the luminance window of an image with origin
`(wx, wy)`, cropped (no padding) where it runs past the image boundary. -/
def window (I : Img) (wx wy : ℕ) : List ℚ :=
  (List.range (min windowSize (I.width - wx))).flatMap fun dx =>
    (List.range (min windowSize (I.height - wy))).map fun dy =>
      lum (I.pix (wx + dx) (wy + dy))

/-- Modelled from the spec: the SSIM strategy's difference map, one cell
per window origin (stride 1), `cell = clamp(1 - SSIM_window, 0, 1)`. -/
def ssimDiffMap (A B : Img) : DiffMap :=
  ⟨A.width, A.height, fun x y =>
    clip 0 1 (1 - ssimWin (window A x y) (window B x y))⟩

/-- Modelled from the spec: the SSIM aggregate score,
`100.0 * mean(SSIM_window over all windows)`. -/
def ssimScore (A B : Img) : ℚ :=
  100 * ((∑ p in Finset.range A.width ×ˢ Finset.range A.height,
      ssimWin (window A p.1 p.2) (window B p.1 p.2)) / (A.width * A.height))

/-- Modelled from the spec: `compare(imgA, imgB, sensitivity)` for the SSIM
strategy.  As for the pixel strategy, sensitivity only defines the visual
threshold and does not enter the score. -/
def ssimCompare (A B : Img) (_s : ℤ) : DiffMap × ℚ :=
  (ssimDiffMap A B, ssimScore A B)

/-- Modelled from the spec: the immutable registry of comparison
strategies, keyed by name. -/
def comparisonStrategies : List (String × (Img → Img → ℤ → DiffMap × ℚ)) :=
  [("pixel", pixelCompare), ("ssim", ssimCompare)]

/-- The discoverable list of registered comparison strategy names. -/
def comparisonNames : List String := comparisonStrategies.map Prod.fst

/-! ## Visualisation strategies (modelled from the spec) -/

/-- Linear interpolation between two rationals. -/
def lerp (a b t : ℚ) : ℚ := a + (b - a) * t

/-- Channel-wise linear interpolation between two pixels (alpha blending
with opacity `t`). -/
def pixLerp (p q : Pixel) (t : ℚ) : Pixel :=
  ⟨lerp p.r q.r t, lerp p.g q.g t, lerp p.b q.b t⟩

/-- Modelled from the spec: the heatmap's fixed color gradient
(low → yellow, high → red); an implementation choice the spec leaves
open but requires to be fixed. -/
def gradientColor (ratio : ℚ) : Pixel := ⟨255, 255 * (1 - ratio), 0⟩

/-- Modelled from the spec: `render(baseImage, differenceMap, sensitivity)`
for the heatmap strategy.  Cells with magnitude below the threshold `t` are
fully transparent (the base pixel is unchanged); cells at or above `t` are
colored through the gradient proportionally to `(magnitude - t) / (1 - t)`
and alpha-blended over the base image with opacity equal to that ratio. -/
def heatmapRender (base : Img) (dm : DiffMap) (s : ℤ) : Img :=
  ⟨base.width, base.height, fun x y =>
    let m := dm.cell x y
    let t := threshold s
    if m < t then base.pix x y
    else
      let ratio := clip 0 1 (if t = 1 then 1 else (m - t) / (1 - t))
      pixLerp (base.pix x y) (gradientColor ratio) ratio⟩

/-- Thresholded binary mask of a difference map (1 = changed); cells
outside the map's extent count as unchanged. -/
def changedMask (dm : DiffMap) (s : ℤ) (x y : ℕ) : Bool :=
  decide (x < dm.width) && decide (y < dm.height) &&
    decide (threshold s ≤ dm.cell x y)

/-- A mask cell on the border of a 4-connected changed region: the cell is
changed and some 4-neighbour (or the image border) is not. -/
def maskBoundary (dm : DiffMap) (s : ℤ) (x y : ℕ) : Bool :=
  changedMask dm s x y &&
    (!changedMask dm s (x + 1) y || decide (x = 0) || !changedMask dm s (x - 1) y ||
     !changedMask dm s x (y + 1) || decide (y = 0) || !changedMask dm s x (y - 1))

/-- Fixed contour stroke color (an implementation choice the spec leaves
open but requires to be fixed). -/
def strokeColor : Pixel := ⟨255, 0, 0⟩

/-- Modelled from the spec: `render(baseImage, differenceMap, sensitivity)`
for the contour strategy — outlines of the thresholded mask's 4-connected
regions drawn in a fixed stroke color onto a copy of the base image.  The
spec's minimum-area noise filter is a fixed internal constant and is not
modelled (no claim depends on it); boundaries are drawn for all regions. -/
def contourRender (base : Img) (dm : DiffMap) (s : ℤ) : Img :=
  ⟨base.width, base.height, fun x y =>
    if maskBoundary dm s x y then strokeColor else base.pix x y⟩

/-- Modelled from the spec: the immutable registry of visualisation
strategies, keyed by name. -/
def visualisationStrategies : List (String × (Img → DiffMap → ℤ → Img)) :=
  [("heatmap", heatmapRender), ("contour", contourRender)]

/-- The discoverable list of registered visualisation strategy names. -/
def visualisationNames : List String := visualisationStrategies.map Prod.fst

/-! ## Normalizer and Orchestrator (modelled from the spec) -/

/-- The engine's error taxonomy. -/
inductive EngineError where
  | decodeError
  | dimensionError
  | unknownStrategyError
  | invalidSensitivityError
deriving DecidableEq

/-- Modelled from the spec: a raw encoded image byte buffer, abstracted to
whether it decodes to a pixel grid (`ok`) or is not a recognizable image
format (`bad`). -/
inductive Raw where
  | ok (i : Img)
  | bad

/-- Modelled from the spec: decoding raw bytes into a pixel grid; fails
with `DecodeError` on unrecognizable input. -/
def decode : Raw → Except EngineError Img
  | .ok i => .ok i
  | .bad => .error .decodeError

/-- Coordinate mapping used by bilinear resizing: the source coordinate
corresponding to target index `i` along an axis of source extent `src` and
target extent `tgt`. -/
def srcCoord (src tgt i : ℕ) : ℚ :=
  if tgt ≤ 1 then 0 else ((i * (src - 1) : ℕ) : ℚ) / (((tgt - 1 : ℕ) : ℕ) : ℚ)

/-- Modelled from the spec: deterministic bilinear resizing of an image to
target dimensions `tw × th`. -/
def bilinearResize (I : Img) (tw th : ℕ) : Img :=
  ⟨tw, th, fun x y =>
    let sx := srcCoord I.width tw x
    let sy := srcCoord I.height th y
    let x0 := sx.floor.toNat
    let y0 := sy.floor.toNat
    let x1 := min (x0 + 1) (I.width - 1)
    let y1 := min (y0 + 1) (I.height - 1)
    pixLerp (pixLerp (I.pix x0 y0) (I.pix x1 y0) (sx - (x0 : ℚ)))
      (pixLerp (I.pix x0 y1) (I.pix x1 y1) (sx - (x0 : ℚ))) (sy - (y0 : ℚ))⟩

/-- Modelled from the spec:
`normalize(rawBeforeBytes, rawAfterBytes) -> (NormalizedImage, NormalizedImage)`.
Decodes both inputs, fails with `DimensionError` when either has a
zero-length dimension, and resizes the after image to the before image's
dimensions (bilinear) when the dimensions differ. -/
def normalize (a b : Raw) : Except EngineError (Img × Img) :=
  match decode a, decode b with
  | .ok A, .ok B =>
    if A.width = 0 ∨ A.height = 0 ∨ B.width = 0 ∨ B.height = 0 then
      .error .dimensionError
    else if B.width = A.width ∧ B.height = A.height then
      .ok (A, B)
    else
      .ok (A, bilinearResize B A.width A.height)
  | .error e, _ => .error e
  | .ok _, .error e => .error e

/-- Modelled from the spec: `ComparisonResult` — the aggregate score and
the rendered output image (PNG encoding of the pixel buffer is outside the
model). -/
structure ComparisonResult where
  score : ℚ
  image : Img

/-- Modelled from the spec: the Orchestrator's
`run(rawBefore, rawAfter, comparisonKind, visualisationKind, sensitivity)`.
Validation comes first — sensitivity in `[0, 100]`
(`InvalidSensitivityError` otherwise) and both strategy names registered
(`UnknownStrategyError` otherwise) — and only then the
Normalizer → Comparison Strategy → Visualisation Strategy pipeline runs;
the rendered output uses the normalized after image as the base image. -/
def run (a b : Raw) (ck vk : String) (s : ℤ) :
    Except EngineError ComparisonResult :=
  if s < 0 ∨ 100 < s then .error .invalidSensitivityError
  else
    match comparisonStrategies.lookup ck, visualisationStrategies.lookup vk with
    | some comp, some vis =>
      (normalize a b).map fun AB =>
        let r := comp AB.1 AB.2 s
        ⟨r.2, vis AB.2 r.1 s⟩
    | some _, none => .error .unknownStrategyError
    | none, _ => .error .unknownStrategyError

/-- The number of difference-map cells classified as "changed" at a given
sensitivity: cells whose magnitude is at or above the effective threshold
`t = (100 - sensitivity) / 100.0`. -/
def changedCount (dm : DiffMap) (s : ℤ) : ℕ :=
  ((Finset.range dm.width ×ˢ Finset.range dm.height).filter
    fun p => threshold s ≤ dm.cell p.1 p.2).card

/-- A solid-color image, used as a concrete test input. -/
def constImg (w h : ℕ) (p : Pixel) : Img := ⟨w, h, fun _ _ => p⟩

/-- A concrete 2×2 all-black test image. -/
def imgBlack2 : Img := constImg 2 2 ⟨0, 0, 0⟩

/-- A concrete 2×2 all-white test image. -/
def imgWhite2 : Img := constImg 2 2 ⟨255, 255, 255⟩

/-- A concrete 100×100 all-black test image. -/
def imgBefore100 : Img := constImg 100 100 ⟨0, 0, 0⟩

/-- A concrete 50×50 all-white test image. -/
def imgAfter50 : Img := constImg 50 50 ⟨255, 255, 255⟩

/-! ## Frontend: the `ComparisonForm` component

Embedded from the component source in the README (`handleSubmit`, the
slider, and the submit button).  A `File` is abstracted to its contents;
JavaScript truthiness of `File | null` is `Option.isSome`, of a string is
non-emptiness. -/

/-- An uploaded file, abstracted to its contents. -/
abbrev UFile := String

/-- The multipart form body built by `handleSubmit`: fields
`before_image`, `after_image`, `comparison_type`, `visualtion_type`
(spelled as in the source) and `sensitivity` (serialized with
`toString`). -/
structure SubmitRequest where
  before_image : UFile
  after_image : UFile
  comparison_type : String
  visualtion_type : String
  sensitivity : String
deriving DecidableEq

/-- The React state of `ComparisonForm`: one field per `useState` hook. -/
structure FormState where
  beforeImage : Option UFile
  afterImage : Option UFile
  beforePreview : String
  afterPreview : String
  comparisonType : String
  visualisationType : String
  sensitivity : ℤ
  isLoading : Bool
  comparisonTypes : List String
  visualisationTypes : List String
deriving DecidableEq

/-- The initial state of the component's hooks:
`useState<File | null>(null)` twice, empty strings for the previews and
the two type selections, `useState<number>(50)` for sensitivity,
`false` for `isLoading`, and empty lists for the fetched type lists. -/
def initialFormState : FormState :=
  ⟨none, none, "", "", "", "", 50, false, [], []⟩

/-- The guard of `handleSubmit`:
`!beforeImage || !afterImage || !comparisonType || !visualisationType`
(a `File | null` is falsy when null, a string when empty). -/
def formIncomplete (s : FormState) : Bool :=
  s.beforeImage.isNone || s.afterImage.isNone ||
    s.comparisonType == "" || s.visualisationType == ""

/-- The `handleSubmit` handler: returns immediately when the guard trips;
otherwise
sets `isLoading`, builds the form body and issues the POST.  The result is
the component state after the synchronous prefix of the handler together
with the request issued, if any. -/
def handleSubmit (s : FormState) : FormState × Option SubmitRequest :=
  if formIncomplete s then (s, none)
  else
    ({ s with isLoading := true },
      some ⟨s.beforeImage.getD "", s.afterImage.getD "",
        s.comparisonType, s.visualisationType, toString s.sensitivity⟩)

/-- The submit button's `disabled` expression:
`!beforeImage || !afterImage || !comparisonType || !visualisationType || isLoading`. -/
def submitDisabled (s : FormState) : Bool :=
  s.beforeImage.isNone || s.afterImage.isNone ||
    s.comparisonType == "" || s.visualisationType == "" || s.isLoading

/-- The preview data URL produced by `FileReader.readAsDataURL`,
abstracted. -/
def dataUrl (f : UFile) : String := "data:" ++ f

/-- One state transition of the component: an image upload, a select
change, a slider change, the synchronous prefix of `handleSubmit`, the
`finally` block of `handleSubmit` clearing `isLoading`, or the
`useEffect` fetch of the two type lists.  A slider change carries a value
the `Slider` component constrains to min 0, max 100, step 1, hence
an integer in `[0, 100]`. -/
inductive FormStep : FormState → FormState → Prop where
  | uploadBefore (s : FormState) (f : UFile) :
      FormStep s { s with beforeImage := some f, beforePreview := dataUrl f }
  | uploadAfter (s : FormState) (f : UFile) :
      FormStep s { s with afterImage := some f, afterPreview := dataUrl f }
  | selectComparison (s : FormState) (t : String) :
      FormStep s { s with comparisonType := t }
  | selectVisualisation (s : FormState) (t : String) :
      FormStep s { s with visualisationType := t }
  | sliderChange (s : FormState) (v : ℤ) (h0 : 0 ≤ v) (h1 : v ≤ 100) :
      FormStep s { s with sensitivity := v }
  | submit (s : FormState) :
      FormStep s (handleSubmit s).1
  | requestSettled (s : FormState) :
      FormStep s { s with isLoading := false }
  | typesLoaded (s : FormState) (cs vs : List String) :
      FormStep s { s with comparisonTypes := cs, visualisationTypes := vs }

/-- The states the component can reach from its initial state. -/
inductive FormReachable : FormState → Prop where
  | init : FormReachable initialFormState
  | step {s s' : FormState} :
      FormReachable s → FormStep s s' → FormReachable s'

/-! ## Helper lemmas -/

/-- The state `handleSubmit` leaves behind keeps the sensitivity value. -/
lemma handleSubmit_sensitivity (s : FormState) :
    (handleSubmit s).1.sensitivity = s.sensitivity := by
  unfold handleSubmit
  split <;> rfl

/-- Any request `handleSubmit` issues carries the state's sensitivity,
serialized with `toString`. -/
lemma handleSubmit_request (s : FormState) (r : SubmitRequest)
    (h : (handleSubmit s).2 = some r) :
    r.sensitivity = toString s.sensitivity := by
  unfold handleSubmit at h
  split at h
  · exact absurd h (by simp)
  · simp only [Option.some.injEq] at h
    cases h
    rfl

/-- The pixel-difference cell magnitude is symmetric in its arguments. -/
lemma pixelCellMag_comm (a b : Pixel) : pixelCellMag a b = pixelCellMag b a := by
  unfold pixelCellMag
  rw [abs_sub_comm a.r, abs_sub_comm a.g, abs_sub_comm a.b]

/-- The pixel-difference cell magnitude of a pixel with itself is zero. -/
lemma pixelCellMag_self (a : Pixel) : pixelCellMag a a = 0 := by
  unfold pixelCellMag
  simp

/-- The effective threshold is antitone in the sensitivity. -/
lemma threshold_antitone {s1 s2 : ℤ} (h : s1 ≤ s2) :
    threshold s2 ≤ threshold s1 := by
  unfold threshold
  have h' : (s1 : ℚ) ≤ (s2 : ℚ) := by exact_mod_cast h
  push_cast
  linarith

/-- Fewer cells clear a higher threshold. -/
lemma changedCount_mono (dm : DiffMap) {s1 s2 : ℤ} (h : s1 ≤ s2) :
    changedCount dm s1 ≤ changedCount dm s2 := by
  unfold changedCount
  apply Finset.card_le_card
  apply Finset.monotone_filter_right
  intro p hp
  exact le_trans (threshold_antitone h) hp

/-- Zipping a list with itself is mapping the diagonal. -/
lemma zipWith_self (f : ℚ → ℚ → ℚ) (l : List ℚ) :
    List.zipWith f l l = l.map fun a => f a a := by
  induction l with
  | nil => rfl
  | cons a t ih => simp [List.zipWith, ih]

/-- The covariance of a window with itself is its variance. -/
lemma wcov_self (w : List ℚ) : wcov w w = wvar w := by
  unfold wcov wvar
  rw [zipWith_self]
  have hf : (fun a => (a - wmean w) * (a - wmean w)) =
      (fun x : ℚ => (x - wmean w) ^ 2) := by
    funext x
    rw [pow_two]
  rw [hf]

/-- Window variance is nonnegative. -/
lemma wvar_nonneg (w : List ℚ) : 0 ≤ wvar w := by
  unfold wvar
  apply div_nonneg
  · apply List.sum_nonneg
    intro x hx
    simp only [List.mem_map] at hx
    obtain ⟨a, _, rfl⟩ := hx
    positivity
  · positivity

/-- SSIM of a window with itself is exactly 1. -/
lemma ssimWin_self (w : List ℚ) : ssimWin w w = 1 := by
  unfold ssimWin
  rw [wcov_self]
  have hnum : 2 * wmean w * wmean w + ssimC1 =
      wmean w ^ 2 + wmean w ^ 2 + ssimC1 := by ring
  have hden : 2 * wvar w + ssimC2 = wvar w + wvar w + ssimC2 := by ring
  rw [hnum, hden]
  apply div_self
  apply ne_of_gt
  apply mul_pos
  · have hc : (0:ℚ) < ssimC1 := by norm_num [ssimC1]
    nlinarith [sq_nonneg (wmean w)]
  · have hc : (0:ℚ) < ssimC2 := by norm_num [ssimC2]
    have hv := wvar_nonneg w
    linarith

/-- The pixel-difference cell magnitude of two 8-bit pixels lies in
`[0, 1]`. -/
lemma pixelCellMag_mem_unit (a b : Pixel) (ha : a.valid) (hb : b.valid) :
    0 ≤ pixelCellMag a b ∧ pixelCellMag a b ≤ 1 := by
  obtain ⟨har0, har1, hag0, hag1, hab0, hab1⟩ := ha
  obtain ⟨hbr0, hbr1, hbg0, hbg1, hbb0, hbb1⟩ := hb
  unfold pixelCellMag
  constructor
  · positivity
  · have h1 : |a.r - b.r| ≤ 255 := abs_le.mpr ⟨by linarith, by linarith⟩
    have h2 : |a.g - b.g| ≤ 255 := abs_le.mpr ⟨by linarith, by linarith⟩
    have h3 : |a.b - b.b| ≤ 255 := abs_le.mpr ⟨by linarith, by linarith⟩
    linarith

/-- The constant black 2×2 test image has 8-bit channels. -/
lemma imgBlack2_valid : imgBlack2.valid := by
  intro x y _ _
  unfold imgBlack2 constImg Pixel.valid
  norm_num

/-- The constant white 2×2 test image has 8-bit channels. -/
lemma imgWhite2_valid : imgWhite2.valid := by
  intro x y _ _
  unfold imgWhite2 constImg Pixel.valid
  norm_num

/-- A name outside the registered comparison names looks up to nothing. -/
lemma comparison_lookup_eq_none (ck : String) (h : ck ∉ comparisonNames) :
    comparisonStrategies.lookup ck = none := by
  simp only [comparisonNames, comparisonStrategies, List.map, List.mem_cons,
    List.not_mem_nil, or_false, not_or] at h
  have e1 : (ck == "pixel") = false := beq_eq_false_iff_ne.mpr h.1
  have e2 : (ck == "ssim") = false := beq_eq_false_iff_ne.mpr h.2
  simp [comparisonStrategies, List.lookup, e1, e2]

/-- A name outside the registered visualisation names looks up to
nothing. -/
lemma visualisation_lookup_eq_none (vk : String)
    (h : vk ∉ visualisationNames) :
    visualisationStrategies.lookup vk = none := by
  simp only [visualisationNames, visualisationStrategies, List.map,
    List.mem_cons, List.not_mem_nil, or_false, not_or] at h
  have e1 : (vk == "heatmap") = false := beq_eq_false_iff_ne.mpr h.1
  have e2 : (vk == "contour") = false := beq_eq_false_iff_ne.mpr h.2
  simp [visualisationStrategies, List.lookup, e1, e2]

/-- A registered comparison name looks up to its strategy. -/
lemma comparison_lookup_mem (ck : String) (h : ck ∈ comparisonNames) :
    (ck = "pixel" ∧ comparisonStrategies.lookup ck = some pixelCompare) ∨
    (ck = "ssim" ∧ comparisonStrategies.lookup ck = some ssimCompare) := by
  simp only [comparisonNames, comparisonStrategies, List.map, List.mem_cons,
    List.not_mem_nil, or_false] at h
  rcases h with h | h
  · subst h
    left
    exact ⟨rfl, rfl⟩
  · subst h
    right
    refine ⟨rfl, ?_⟩
    simp [comparisonStrategies, List.lookup]

/-- A registered visualisation name looks up to its strategy. -/
lemma visualisation_lookup_mem (vk : String) (h : vk ∈ visualisationNames) :
    (vk = "heatmap" ∧
      visualisationStrategies.lookup vk = some heatmapRender) ∨
    (vk = "contour" ∧
      visualisationStrategies.lookup vk = some contourRender) := by
  simp only [visualisationNames, visualisationStrategies, List.map,
    List.mem_cons, List.not_mem_nil, or_false] at h
  rcases h with h | h
  · subst h
    left
    exact ⟨rfl, rfl⟩
  · subst h
    right
    refine ⟨rfl, ?_⟩
    simp [visualisationStrategies, List.lookup]

/-! ## Claim theorems -/

/-- C9: when any of `beforeImage`, `afterImage`, `comparisonType` or
`visualisationType` is unset, `handleSubmit` returns immediately — the
state is unchanged and no POST request is issued — and the submit button
is disabled exactly when the form is incomplete or a request is in
flight. -/
theorem handleSubmit_guard_no_request (s : FormState) :
    (formIncomplete s = true → handleSubmit s = (s, none)) ∧
    submitDisabled s = (formIncomplete s || s.isLoading) := by
  constructor
  · intro h
    unfold handleSubmit
    simp [h]
  · unfold submitDisabled formIncomplete
    simp [Bool.or_assoc]

/-- Witness for C9 at the initial state, where both images are unset. -/
theorem handleSubmit_guard_no_request_w :
    handleSubmit initialFormState = (initialFormState, none) ∧
    submitDisabled initialFormState =
      (formIncomplete initialFormState || initialFormState.isLoading) :=
  ⟨(handleSubmit_guard_no_request initialFormState).1 (by decide),
   (handleSubmit_guard_no_request initialFormState).2⟩

/-- C10: the form's sensitivity starts at 50, stays an integer in
`[0, 100]` in every reachable state (the slider is constrained to
`min 0, max 100, step 1`), and every request `handleSubmit` issues
serializes exactly that value. -/
theorem form_sensitivity_in_range :
    initialFormState.sensitivity = 50 ∧
    ∀ s : FormState, FormReachable s →
      (0 ≤ s.sensitivity ∧ s.sensitivity ≤ 100) ∧
      ∀ r : SubmitRequest, (handleSubmit s).2 = some r →
        r.sensitivity = toString s.sensitivity := by
  refine ⟨rfl, ?_⟩
  intro s hs
  induction hs with
  | init => exact ⟨by decide, fun r h => handleSubmit_request _ r h⟩
  | step h1 h2 ih =>
    refine ⟨?_, fun r h => handleSubmit_request _ r h⟩
    cases h2 with
    | uploadBefore f => exact ih.1
    | uploadAfter f => exact ih.1
    | selectComparison t => exact ih.1
    | selectVisualisation t => exact ih.1
    | sliderChange v h0 h100 => exact ⟨h0, h100⟩
    | submit => rw [handleSubmit_sensitivity]; exact ih.1
    | requestSettled => exact ih.1
    | typesLoaded cs vs => exact ih.1

/-- Witness for C10 at the initial state. -/
theorem form_sensitivity_in_range_w :
    initialFormState.sensitivity = 50 ∧
    (0 ≤ initialFormState.sensitivity ∧ initialFormState.sensitivity ≤ 100) :=
  ⟨form_sensitivity_in_range.1,
   (form_sensitivity_in_range.2 initialFormState FormReachable.init).1⟩

/-- C1: for equal-dimension RGB inputs, the pixel-difference strategy's
cell magnitude at each pixel is the mean over the three channels of
`|A[c] - B[c]|` divided by 255, and its aggregate score is
`100 * (1 - mean of the magnitudes over all cells)` clipped to
`[0, 100]`. -/
theorem pixelCompare_cell_and_score (A B : Img) (s : ℤ)
    (_hw : A.width = B.width) (_hh : A.height = B.height) :
    (∀ x y, (pixelCompare A B s).1.cell x y =
      ((|(A.pix x y).r - (B.pix x y).r| + |(A.pix x y).g - (B.pix x y).g| +
        |(A.pix x y).b - (B.pix x y).b|) / 3) / 255) ∧
    (pixelCompare A B s).2 =
      max 0 (min 100 (100 * (1 -
        (∑ x in Finset.range A.width, ∑ y in Finset.range A.height,
          (pixelCompare A B s).1.cell x y) / (A.width * A.height)))) := by
  refine ⟨fun x y => rfl, ?_⟩
  have hmean : (pixelDiffMap A B).mean =
      (∑ x in Finset.range A.width, ∑ y in Finset.range A.height,
        (pixelCompare A B s).1.cell x y) / (A.width * A.height) := by
    unfold DiffMap.mean pixelDiffMap
    rw [Finset.sum_product]
    rfl
  show clip 0 100 (100 * (1 - (pixelDiffMap A B).mean)) = _
  rw [hmean]
  rfl

/-- Witness for C1 on concrete 2×2 black and white images. -/
theorem pixelCompare_cell_and_score_w :
    (pixelCompare imgBlack2 imgWhite2 50).2 =
      max 0 (min 100 (100 * (1 -
        (∑ x in Finset.range imgBlack2.width,
          ∑ y in Finset.range imgBlack2.height,
          (pixelCompare imgBlack2 imgWhite2 50).1.cell x y) /
        (imgBlack2.width * imgBlack2.height)))) :=
  (pixelCompare_cell_and_score imgBlack2 imgWhite2 50 rfl rfl).2

/-- C5: the pixel-difference strategy is symmetric — swapping the two
equal-dimension inputs leaves the aggregate score and the whole difference
map unchanged. -/
theorem pixelCompare_symmetric (A B : Img) (s : ℤ)
    (hw : A.width = B.width) (hh : A.height = B.height) :
    (pixelCompare A B s).2 = (pixelCompare B A s).2 ∧
    (pixelCompare A B s).1.width = (pixelCompare B A s).1.width ∧
    (pixelCompare A B s).1.height = (pixelCompare B A s).1.height ∧
    ∀ x y, (pixelCompare A B s).1.cell x y = (pixelCompare B A s).1.cell x y := by
  refine ⟨?_, hw, hh, fun x y => pixelCellMag_comm _ _⟩
  show pixelScore A B = pixelScore B A
  have hmean : (pixelDiffMap A B).mean = (pixelDiffMap B A).mean := by
    unfold DiffMap.mean pixelDiffMap
    simp only
    rw [hw, hh]
    congr 1
    apply Finset.sum_congr rfl
    intro p _
    exact pixelCellMag_comm _ _
  unfold pixelScore
  rw [hmean]

/-- Witness for C5 on concrete 2×2 black and white images. -/
theorem pixelCompare_symmetric_w :
    (pixelCompare imgBlack2 imgWhite2 50).2 =
      (pixelCompare imgWhite2 imgBlack2 50).2 :=
  (pixelCompare_symmetric imgBlack2 imgWhite2 50 rfl rfl).1

/-- C4: for equal-dimension inputs and any two sensitivities in
`[0, 100]`, the pixel-difference aggregate score is the same — sensitivity
is a visualisation/classification threshold only and never changes the
score. -/
theorem pixelScore_sensitivity_independent (A B : Img)
    (_hw : A.width = B.width) (_hh : A.height = B.height) (s1 s2 : ℤ)
    (_h1 : 0 ≤ s1) (_h2 : s1 ≤ 100) (_h3 : 0 ≤ s2) (_h4 : s2 ≤ 100) :
    (pixelCompare A B s1).2 = (pixelCompare A B s2).2 := rfl

/-- Witness for C4 on concrete 2×2 images and sensitivities 10 and 90. -/
theorem pixelScore_sensitivity_independent_w :
    (pixelCompare imgBlack2 imgWhite2 10).2 =
      (pixelCompare imgBlack2 imgWhite2 90).2 :=
  pixelScore_sensitivity_independent imgBlack2 imgWhite2 rfl rfl 10 90
    (by decide) (by decide) (by decide) (by decide)

/-- C6: for a fixed input pair and any registered comparison strategy,
raising the sensitivity never decreases the number of difference-map cells
classified as changed (magnitude at or above the effective threshold
`t = (100 - sensitivity) / 100`). -/
theorem changedCells_monotone (nm : String)
    (strat : Img → Img → ℤ → DiffMap × ℚ)
    (hmem : (nm, strat) ∈ comparisonStrategies) (A B : Img) (s1 s2 : ℤ)
    (hle : s1 ≤ s2) (_h0 : 0 ≤ s1) (_h100 : s2 ≤ 100) :
    changedCount (strat A B s1).1 s1 ≤ changedCount (strat A B s2).1 s2 := by
  simp only [comparisonStrategies, List.mem_cons, List.not_mem_nil,
    or_false] at hmem
  rcases hmem with h | h
  · injection h with h1 h2
    subst h2
    exact changedCount_mono (pixelDiffMap A B) hle
  · injection h with h1 h2
    subst h2
    exact changedCount_mono (ssimDiffMap A B) hle

/-- Witness for C6: pixel strategy on concrete 2×2 images, sensitivities
20 and 80. -/
theorem changedCells_monotone_w :
    changedCount (pixelCompare imgBlack2 imgWhite2 20).1 20 ≤
      changedCount (pixelCompare imgBlack2 imgWhite2 80).1 80 :=
  changedCells_monotone "pixel" pixelCompare
    (by simp [comparisonStrategies]) imgBlack2 imgWhite2 20 80
    (by decide) (by decide) (by decide)

/-- C2: comparing an image against itself, for every registered comparison
strategy, yields an aggregate score of exactly 100 and a difference map in
which every cell's magnitude is zero. -/
theorem identity_comparison (nm : String)
    (strat : Img → Img → ℤ → DiffMap × ℚ)
    (hmem : (nm, strat) ∈ comparisonStrategies) (A : Img) (s : ℤ)
    (hw : 0 < A.width) (hh : 0 < A.height) :
    (strat A A s).2 = 100 ∧ ∀ x y, (strat A A s).1.cell x y = 0 := by
  simp only [comparisonStrategies, List.mem_cons, List.not_mem_nil,
    or_false] at hmem
  rcases hmem with h | h
  · injection h with h1 h2
    subst h2
    constructor
    · show pixelScore A A = 100
      have hmean : (pixelDiffMap A A).mean = 0 := by
        unfold DiffMap.mean pixelDiffMap
        simp only
        have hz : ∀ p ∈ Finset.range A.width ×ˢ Finset.range A.height,
            pixelCellMag (A.pix p.1 p.2) (A.pix p.1 p.2) = 0 :=
          fun p _ => pixelCellMag_self _
        rw [Finset.sum_congr rfl hz]
        simp
      unfold pixelScore
      rw [hmean]
      norm_num [clip]
    · intro x y
      exact pixelCellMag_self _
  · injection h with h1 h2
    subst h2
    constructor
    · show ssimScore A A = 100
      unfold ssimScore
      have hone : ∀ p ∈ Finset.range A.width ×ˢ Finset.range A.height,
          ssimWin (window A p.1 p.2) (window A p.1 p.2) = 1 :=
        fun p _ => ssimWin_self _
      rw [Finset.sum_congr rfl hone]
      rw [Finset.sum_const, Finset.card_product, Finset.card_range,
        Finset.card_range]
      have hw' : ((A.width : ℚ)) ≠ 0 :=
        Nat.cast_ne_zero.mpr (Nat.pos_iff_ne_zero.mp hw)
      have hh' : ((A.height : ℚ)) ≠ 0 :=
        Nat.cast_ne_zero.mpr (Nat.pos_iff_ne_zero.mp hh)
      field_simp
    · intro x y
      show clip 0 1 (1 - ssimWin (window A x y) (window A x y)) = 0
      rw [ssimWin_self]
      norm_num [clip]

/-- Witness for C2: the score of the SSIM strategy comparing a concrete
2×2 image against itself, and the cell at the origin. -/
theorem identity_comparison_w :
    (ssimCompare imgBlack2 imgBlack2 50).2 = 100 ∧
      (ssimCompare imgBlack2 imgBlack2 50).1.cell 0 0 = 0 := by
  have h := identity_comparison "ssim" ssimCompare
    (by simp [comparisonStrategies]) imgBlack2 50 (by decide) (by decide)
  exact ⟨h.1, h.2 0 0⟩

/-- C8: for valid equal-dimension inputs, any sensitivity in `[0, 100]`
and every registered comparison strategy, every in-range cell of the
produced difference map holds a magnitude in `[0, 1]`. -/
theorem diffMap_cells_in_unit_interval (nm : String)
    (strat : Img → Img → ℤ → DiffMap × ℚ)
    (hmem : (nm, strat) ∈ comparisonStrategies) (A B : Img) (s : ℤ)
    (hA : A.valid) (hB : B.valid)
    (hw : A.width = B.width) (hh : A.height = B.height)
    (_hs0 : 0 ≤ s) (_hs1 : s ≤ 100) :
    ∀ x y, x < (strat A B s).1.width → y < (strat A B s).1.height →
      0 ≤ (strat A B s).1.cell x y ∧ (strat A B s).1.cell x y ≤ 1 := by
  simp only [comparisonStrategies, List.mem_cons, List.not_mem_nil,
    or_false] at hmem
  rcases hmem with h | h
  · injection h with h1 h2
    subst h2
    intro x y hx hy
    have hx' : x < A.width := hx
    have hy' : y < A.height := hy
    exact pixelCellMag_mem_unit _ _ (hA x y hx' hy')
      (hB x y (hw ▸ hx') (hh ▸ hy'))
  · injection h with h1 h2
    subst h2
    intro x y _ _
    show 0 ≤ clip 0 1 _ ∧ clip 0 1 _ ≤ 1
    exact ⟨le_max_left 0 _, max_le zero_le_one (min_le_left 1 _)⟩

/-- Witness for C8: the origin cell of the pixel strategy's map on
concrete 2×2 black and white images. -/
theorem diffMap_cells_in_unit_interval_w :
    0 ≤ (pixelCompare imgBlack2 imgWhite2 50).1.cell 0 0 ∧
      (pixelCompare imgBlack2 imgWhite2 50).1.cell 0 0 ≤ 1 :=
  diffMap_cells_in_unit_interval "pixel" pixelCompare
    (by simp [comparisonStrategies]) imgBlack2 imgWhite2 50
    imgBlack2_valid imgWhite2_valid rfl rfl (by decide) (by decide)
    0 0 (by decide) (by decide)

/-- C3: the Orchestrator rejects a sensitivity outside `[0, 100]` with
`InvalidSensitivityError`, and — for any in-range sensitivity and any raw
inputs whatsoever, decodable or not — rejects an unregistered comparison
or visualisation name with `UnknownStrategyError`; the run is exactly that
error, so no normalization, comparison, or rendering is performed and the
pure engine holds no state to change. -/
theorem run_validation (a b : Raw) (ck vk : String) (s : ℤ) :
    ((s < 0 ∨ 100 < s) →
      run a b ck vk s = .error .invalidSensitivityError) ∧
    (0 ≤ s → s ≤ 100 →
      (ck ∉ comparisonNames ∨ vk ∉ visualisationNames) →
      run a b ck vk s = .error .unknownStrategyError) := by
  constructor
  · intro h
    unfold run
    rw [if_pos h]
  · intro h0 h1 hname
    unfold run
    rw [if_neg (by omega)]
    rcases hname with h | h
    · rw [comparison_lookup_eq_none ck h]
    · rw [visualisation_lookup_eq_none vk h]
      cases comparisonStrategies.lookup ck <;> rfl

/-- Witness for C3: an unregistered comparison name on undecodable inputs
still fails with `UnknownStrategyError`. -/
theorem run_validation_w :
    run Raw.bad Raw.bad "nope" "heatmap" 50 =
      Except.error EngineError.unknownStrategyError :=
  (run_validation Raw.bad Raw.bad "nope" "heatmap" 50).2 (by decide)
    (by decide) (Or.inl (by decide))

/-- C7: for positive-dimension decoded inputs whose dimensions differ, the
Normalizer resizes the after image to the before image's dimensions, the
Orchestrator raises no error, and the rendered result image has the before
image's dimensions. -/
theorem normalize_resizes_and_result_dims (A B : Img) (ck vk : String)
    (s : ℤ) (hAw : 0 < A.width) (hAh : 0 < A.height)
    (hBw : 0 < B.width) (hBh : 0 < B.height)
    (hdiff : ¬(B.width = A.width ∧ B.height = A.height))
    (hck : ck ∈ comparisonNames) (hvk : vk ∈ visualisationNames)
    (hs0 : 0 ≤ s) (hs1 : s ≤ 100) :
    normalize (Raw.ok A) (Raw.ok B) =
      Except.ok (A, bilinearResize B A.width A.height) ∧
    ∃ res : ComparisonResult,
      run (Raw.ok A) (Raw.ok B) ck vk s = Except.ok res ∧
      res.image.width = A.width ∧ res.image.height = A.height := by
  have hnorm : normalize (Raw.ok A) (Raw.ok B) =
      Except.ok (A, bilinearResize B A.width A.height) := by
    show (if A.width = 0 ∨ A.height = 0 ∨ B.width = 0 ∨ B.height = 0 then
        (Except.error EngineError.dimensionError :
          Except EngineError (Img × Img))
      else if B.width = A.width ∧ B.height = A.height then
        Except.ok (A, B)
      else Except.ok (A, bilinearResize B A.width A.height)) = _
    rw [if_neg (by omega), if_neg hdiff]
  refine ⟨hnorm, ?_⟩
  rcases comparison_lookup_mem ck hck with ⟨hck', hlc⟩ | ⟨hck', hlc⟩ <;>
    rcases visualisation_lookup_mem vk hvk with ⟨hvk', hlv⟩ | ⟨hvk', hlv⟩ <;>
    (unfold run
     rw [if_neg (by omega), hlc, hlv, hnorm]
     exact ⟨_, rfl, rfl, rfl⟩)

/-- Witness for C7: a 100×100 before image and a 50×50 after image, pixel
comparison, heatmap visualisation, sensitivity 50. -/
theorem normalize_resizes_and_result_dims_w :
    normalize (Raw.ok imgBefore100) (Raw.ok imgAfter50) =
      Except.ok (imgBefore100,
        bilinearResize imgAfter50 imgBefore100.width imgBefore100.height) ∧
    ∃ res : ComparisonResult,
      run (Raw.ok imgBefore100) (Raw.ok imgAfter50) "pixel" "heatmap" 50 =
        Except.ok res ∧
      res.image.width = imgBefore100.width ∧
      res.image.height = imgBefore100.height :=
  normalize_resizes_and_result_dims imgBefore100 imgAfter50 "pixel"
    "heatmap" 50 (by decide) (by decide) (by decide) (by decide)
    (by decide) (by decide) (by decide) (by decide) (by decide)

end ImageComparison


